import Mathlib

/-!
Verification of the dynamic-table CRUD handlers of `penerbit-lidan`.

The development shallowly embeds the four JavaScript source files:

* `functions/api/contacts.js` (auto-create collection endpoint,
  namespace `DynAuto`): GET list-all and POST create on a caller-named
  table, lazily provisioning the fixed generic schema;
* `functions/api/contacts/[id].js` (auto-create item endpoint,
  namespace `Item`): GET one / PUT / DELETE by `id_x`, also lazily
  provisioning;
* the reject-if-missing dynamic variant of `functions/api/contacts2.js`
  (namespace `DynReject`): same collection operations, but a missing
  table yields a 404 instead of being created;
* the legacy fixed-schema variant of `functions/api/contacts2.js` and
  `functions/api/contacts/[id]1.js` (namespaces `Legacy`, `LegacyItem`):
  operations on the fixed `contacts` table, no provisioning at all.

The datastore is modelled as an association list from table names to
tables; a table is an autoincrement counter plus a list of rows; a row is
the `id_x` key plus the twenty generic cells `x_01 .. x_20`.  JSON values
are the inductive `Val`; a parsed JSON object is an association list of
string keys to values; a request body that fails to parse is `none`.
SQLite statements touching a table that does not exist raise an error,
which the JavaScript `try`/`catch` structure turns into the responses
modelled here.  Handlers are pure state transformers
`state → response × state`; purity of the embedding mirrors the fact
that the validator and codec in the source are side-effect free.
-/

/-- A JSON scalar value as it travels through the handlers.  The payload
of a request may bind a recognized field to a string, a number, a
boolean or `null`; the codec includes a field regardless of which. -/
inductive Val where
  | str : String → Val
  | num : Int → Val
  | boolean : Bool → Val
  | null : Val
deriving DecidableEq, Repr

/-- A parsed JSON object: keys with their values.  `JSON.parse` yields
objects with distinct keys; lookups take the first binding. -/
abbrev Obj := List (String × Val)

/-- `o.hasOwnProperty(k)` followed by `o[k]`: the value bound to key `k`,
if any. -/
def lookupProp (o : Obj) (k : String) : Option Val :=
  (o.find? (fun p => p.1 == k)).map (fun p => p.2)

/-- `requestData.hasOwnProperty(colName)` from the JavaScript loop. -/
def hasOwnProperty (o : Obj) (k : String) : Bool :=
  (lookupProp o k).isSome

/-- `i.toString().padStart(2, '0')` for the loop indices 1..20. -/
def pad2 (n : Nat) : String :=
  if n < 10 then "0" ++ toString n else toString n

/-- The canonical generic column name `x_NN` built in the loops of
`createContact` and `handleUpdate`. -/
def colName (i : Nat) : String := "x_" ++ pad2 i

/-- `isValidTableName` from the source (identical in
`functions/api/contacts.js`, `contacts2.js` and `contacts/[id].js`):
`/^[a-zA-Z_][a-zA-Z0-9_]*$/.test(tableName) && tableName.length <= 50`.
The regex is decomposed into its character classes. -/
def regexStartChar (c : Char) : Bool :=
  (('a' ≤ c && c ≤ 'z') || ('A' ≤ c && c ≤ 'Z') || c == '_')

def regexBodyChar (c : Char) : Bool :=
  (('a' ≤ c && c ≤ 'z') || ('A' ≤ c && c ≤ 'Z') || ('0' ≤ c && c ≤ '9') || c == '_')

def regexTest (s : String) : Bool :=
  match s.toList with
  | [] => false
  | c :: cs => regexStartChar c && cs.all regexBodyChar

def isValidTableName (tableName : String) : Bool :=
  regexTest tableName && tableName.length ≤ 50

/-- The character class `[A-Za-z_]` of the specification's regex
`^[A-Za-z_][A-Za-z0-9_]*$`, written in the order the spec gives it. -/
abbrev SpecStartChar (c : Char) : Prop :=
  ('A' ≤ c ∧ c ≤ 'Z') ∨ ('a' ≤ c ∧ c ≤ 'z') ∨ c = '_'

/-- The character class `[A-Za-z0-9_]` of the specification's regex. -/
abbrev SpecBodyChar (c : Char) : Prop :=
  ('A' ≤ c ∧ c ≤ 'Z') ∨ ('a' ≤ c ∧ c ≤ 'z') ∨ ('0' ≤ c ∧ c ≤ '9') ∨ c = '_'

/-- The table-name invariant as the specification words it: the string
matches `^[A-Za-z_][A-Za-z0-9_]*$` (nonempty, first character in the
start class, every later character in the body class) and its length is
at most 50. -/
def ValidTableNameSpec (s : String) : Prop :=
  s.toList ≠ [] ∧
  (∀ c ∈ s.toList.take 1, SpecStartChar c) ∧
  (∀ c ∈ s.toList.tail, SpecBodyChar c) ∧
  s.length ≤ 50

instance (s : String) : Decidable (ValidTableNameSpec s) := by
  unfold ValidTableNameSpec
  infer_instance

/-- One row of an auto-provisioned generic table: the autoincrement
primary key `id_x` plus the twenty nullable text cells `x_01 .. x_20`
(cell `j` holds column `x_(j+1)`; an unset column is `Val.null`). -/
structure Row where
  id_x : Nat
  cells : List Val
deriving DecidableEq, Repr

/-- A generic table: the next autoincrement id to assign and the rows in
insertion order. -/
structure Table where
  nextId : Nat
  rows : List Row
deriving DecidableEq, Repr

/-- The state `CREATE TABLE` leaves behind: the fixed generic schema,
zero rows, autoincrement starting at 1. -/
def emptyTable : Table := { nextId := 1, rows := [] }

/-- The column list of the `CREATE TABLE IF NOT EXISTS` statement in
`createTableIfNotExists`, transcribed from its SQL text. -/
def genericSchema : List String :=
  ["id_x",
   "x_01", "x_02", "x_03", "x_04", "x_05", "x_06", "x_07", "x_08", "x_09", "x_10",
   "x_11", "x_12", "x_13", "x_14", "x_15", "x_16", "x_17", "x_18", "x_19", "x_20"]

/-- The datastore: named tables.  The `sqlite_master` existence check is
a key lookup. -/
abbrev GenDB := List (String × Table)

/-- `SELECT name FROM sqlite_master WHERE type='table' AND name=?`
returning a row or not. -/
def tableExists (db : GenDB) (n : String) : Bool :=
  (db.find? (fun p => p.1 == n)).isSome

/-- Reading the named table; the default is never observed on paths that
provision or check first. -/
def getTable (db : GenDB) (n : String) : Table :=
  ((db.find? (fun p => p.1 == n)).map (fun p => p.2)).getD emptyTable

/-- Writing back the named table after a mutating statement. -/
def setTable (db : GenDB) (n : String) (t : Table) : GenDB :=
  if tableExists db n then
    db.map (fun p => if p.1 == n then (n, t) else p)
  else db ++ [(n, t)]

/-- The rows currently stored under a table name (empty when the table
does not exist). -/
def rowsOf (db : GenDB) (n : String) : List Row :=
  (getTable db n).rows

/-- `createTableIfNotExists` from the source: runs the
`CREATE TABLE IF NOT EXISTS <name> (id_x INTEGER PRIMARY KEY
AUTOINCREMENT, x_01 TEXT, ..., x_20 TEXT)` statement, which creates the
generic table exactly when it is absent and otherwise does nothing. -/
def createTableIfNotExists (db : GenDB) (n : String) : GenDB :=
  if tableExists db n then db else db ++ [(n, emptyTable)]

/-- The `tableCheck` / conditional-create prologue shared by every
handler of the auto-create variants: query `sqlite_master`, and when the
table is absent call `createTableIfNotExists`. -/
def ensureTable (db : GenDB) (n : String) : GenDB :=
  if tableExists db n then db else createTableIfNotExists db n

/-- The field-selection loop of `createContact` and `handleUpdate`:
for `i = 1..20` build `x_NN` and, when the payload has that own
property, push the column name and its value. -/
def encodeFields (data : Obj) : List (String × Val) :=
  (List.range 20).filterMap fun j =>
    match lookupProp data (colName (j + 1)) with
    | some v => some (colName (j + 1), v)
    | none => none

/-- The row an `INSERT INTO t (cols) VALUES (...)` builds: every listed
column gets its bound value, every other generic column defaults to
NULL. -/
def buildCells (fields : List (String × Val)) : List Val :=
  (List.range 20).map fun j =>
    match fields.find? (fun p => p.1 == colName (j + 1)) with
    | some p => p.2
    | none => Val.null

/-- Cell access by zero-based column index, NULL-defaulting. -/
def cellOf (r : Row) (j : Nat) : Val :=
  r.cells.getD j Val.null

/-- `UPDATE t SET <fields> WHERE id_x = ?` applied to one matching row:
listed columns take their bound values, the rest keep their prior
values. -/
def applyUpdate (r : Row) (fields : List (String × Val)) : Row :=
  { r with cells := (List.range 20).map fun j =>
      match fields.find? (fun p => p.1 == colName (j + 1)) with
      | some p => p.2
      | none => cellOf r j }

/-- `ORDER BY id_x DESC`. -/
def rowDescOrder (a b : Row) : Prop := b.id_x ≤ a.id_x

instance : DecidableRel rowDescOrder := fun a b => Nat.decLe b.id_x a.id_x

instance : IsTotal Row rowDescOrder :=
  ⟨fun a b => (Nat.le_total b.id_x a.id_x).imp id id⟩

instance : IsTrans Row rowDescOrder :=
  ⟨fun _ _ _ h h2 => Nat.le_trans h2 h⟩

def sortByIdDesc (rows : List Row) : List Row :=
  List.insertionSort rowDescOrder rows

/-- The `id_x, x_01, x_02, x_03` snapshot `handleDelete` echoes back as
`deletedRecord`. -/
structure DeleteSnapshot where
  id_x : Nat
  x_01 : Val
  x_02 : Val
  x_03 : Val
deriving DecidableEq, Repr

def snapshotOf (r : Row) : DeleteSnapshot :=
  { id_x := r.id_x, x_01 := cellOf r 0, x_02 := cellOf r 1, x_03 := cellOf r 2 }

/-- The JSON body of a response of the generic-table endpoints. -/
inductive Body where
  | empty : Body
  | list : Nat → List Row → Body
  | created : String → Nat → List String → Obj → Body
  | single : String → Row → Body
  | updated : String → Nat → List String → Obj → Body
  | deleted : String → Nat → DeleteSnapshot → Body
  | err : String → Body
deriving DecidableEq, Repr

/-- An HTTP response: status code plus JSON body (headers are CORS
plumbing, out of scope). -/
structure Resp where
  status : Nat
  body : Body
deriving DecidableEq, Repr

/-- HTTP request method. -/
inductive Method where
  | get | post | put | del | options | other
deriving DecidableEq, Repr

/-- Does the second character list occur at the head of the first? -/
def charsStartWith : List Char → List Char → Bool
  | _, [] => true
  | [], _ :: _ => false
  | c :: cs, d :: ds => c == d && charsStartWith cs ds

/-- Does the second character list occur anywhere inside the first? -/
def charsContain : List Char → List Char → Bool
  | [], sub => sub.isEmpty
  | c :: rest, sub => charsStartWith (c :: rest) sub || charsContain rest sub

/-- `contentType.includes('application/json')`: substring test. -/
def strIncludes (s sub : String) : Bool :=
  charsContain s.toList sub.toList

/-- The Content-Type gate of `handleUpdate`:
`!contentType || !contentType.includes('application/json')` throws. -/
def contentTypeOk (ct : Option String) : Bool :=
  match ct with
  | none => false
  | some s => strIncludes s "application/json"

namespace DynAuto

/-- `getContacts` of the auto-create collection endpoint
(`functions/api/contacts.js`): check `sqlite_master`, create the table
when absent, then `SELECT * FROM <table> ORDER BY id_x DESC` and answer
200 with the rows and their count. -/
def getContacts (db : GenDB) (tableName : String) : Resp × GenDB :=
  let db1 := ensureTable db tableName
  let results := sortByIdDesc (rowsOf db1 tableName)
  ({ status := 200, body := Body.list results.length results }, db1)

/-- `createContact` of the auto-create collection endpoint.  A body that
fails `request.json()` throws `Invalid JSON data` before any datastore
access; an empty field subset throws inside the inner try, whose catch
rewraps it as a `Failed to save record` error.  Both throws escape the
handler (`Except.error`); otherwise the row is inserted and 200 returned
with `last_row_id` and the written columns. -/
def createContact (db : GenDB) (tableName : String) (body : Option Obj) :
    Except String Resp × GenDB :=
  match body with
  | none => (Except.error "Invalid JSON data", db)
  | some requestData =>
    let db1 := ensureTable db tableName
    let fields := encodeFields requestData
    if fields.length == 0 then
      (Except.error ("Failed to save record to table " ++ tableName ++
        ": At least one field (x_01 to x_20) is required"), db1)
    else
      let t := getTable db1 tableName
      let row : Row := { id_x := t.nextId, cells := buildCells fields }
      let t2 : Table := { nextId := t.nextId + 1, rows := t.rows ++ [row] }
      let flds := fields.map (fun p => p.1)
      let resp : Resp := ⟨200, Body.created tableName t.nextId flds requestData⟩
      (Except.ok resp, setTable db1 tableName t2)

/-- `onRequest` of the auto-create collection endpoint: OPTIONS
preflight, table-name validation, method dispatch; a throw escaping a
handler is caught here and answered with status 500. -/
def onRequest (db : GenDB) (method : Method) (tableName : String)
    (body : Option Obj) : Resp × GenDB :=
  match method with
  | Method.options => ({ status := 200, body := Body.empty }, db)
  | m =>
    if isValidTableName tableName = false then
      ({ status := 400,
         body := Body.err "Invalid table name. Only alphanumeric characters and underscores allowed." }, db)
    else
      match m with
      | Method.get => getContacts db tableName
      | Method.post =>
        match createContact db tableName body with
        | (Except.ok r, db2) => (r, db2)
        | (Except.error msg, db2) => ({ status := 500, body := Body.err msg }, db2)
      | _ => ({ status := 405, body := Body.err "Method not allowed" }, db)

end DynAuto

namespace Item

/-- `handleGetSingle` of the auto-create item endpoint
(`functions/api/contacts/[id].js`): provision when absent, then
`SELECT * FROM <table> WHERE id_x = ?`; 404 when no row matches,
otherwise 200 with the row. -/
def handleGetSingle (db : GenDB) (tableName : String) (id : Nat) : Resp × GenDB :=
  let db1 := ensureTable db tableName
  match (rowsOf db1 tableName).find? (fun r => r.id_x == id) with
  | none =>
    ({ status := 404, body := Body.err ("Record not found in table " ++ tableName) }, db1)
  | some r => ({ status := 200, body := Body.single tableName r }, db1)

/-- `handleUpdate` of the auto-create item endpoint.  Order of the
source: provision when absent; Content-Type gate (throw caught locally,
400); body parse (throw caught locally, 400); existence check by `id_x`
(404); field-selection loop (empty throws, caught locally, 400);
`UPDATE ... WHERE id_x = ?`; 200 with the change count and written
columns. -/
def handleUpdate (db : GenDB) (tableName : String) (id : Nat)
    (contentType : Option String) (body : Option Obj) : Resp × GenDB :=
  let db1 := ensureTable db tableName
  if contentTypeOk contentType = false then
    ({ status := 400,
       body := Body.err ("Update failed in table " ++ tableName ++
         ": Content-Type must be application/json") }, db1)
  else
    match body with
    | none =>
      ({ status := 400,
         body := Body.err ("Update failed in table " ++ tableName ++
           ": invalid JSON body") }, db1)
    | some data =>
      let t := getTable db1 tableName
      match t.rows.find? (fun r => r.id_x == id) with
      | none =>
        ({ status := 404,
           body := Body.err ("Record not found in table " ++ tableName) }, db1)
      | some _ =>
        let fields := encodeFields data
        if fields.length == 0 then
          ({ status := 400,
             body := Body.err ("Update failed in table " ++ tableName ++
               ": At least one field (x_01 to x_20) is required for update") }, db1)
        else
          let changes := (t.rows.filter (fun r => r.id_x == id)).length
          let newRows := t.rows.map (fun r => if r.id_x == id then applyUpdate r fields else r)
          ({ status := 200,
             body := Body.updated tableName changes (fields.map (fun p => p.1)) data },
           setTable db1 tableName { t with rows := newRows })

/-- `handleDelete` of the auto-create item endpoint: provision when
absent; existence check fetching the `id_x, x_01, x_02, x_03` snapshot
(404 when no match); `DELETE FROM <table> WHERE id_x = ?`; 200 with the
change count and the snapshot. -/
def handleDelete (db : GenDB) (tableName : String) (id : Nat) : Resp × GenDB :=
  let db1 := ensureTable db tableName
  let t := getTable db1 tableName
  match t.rows.find? (fun r => r.id_x == id) with
  | none =>
    ({ status := 404, body := Body.err ("Record not found in table " ++ tableName) }, db1)
  | some r =>
    let changes := (t.rows.filter (fun row => row.id_x == id)).length
    let newRows := t.rows.filter (fun row => !(row.id_x == id))
    ({ status := 200, body := Body.deleted tableName changes (snapshotOf r) },
     setTable db1 tableName { t with rows := newRows })

/-- `onRequest` of the auto-create item endpoint: OPTIONS preflight,
table-name validation, id-presence check, method dispatch. -/
def onRequest (db : GenDB) (method : Method) (tableName : String)
    (id : Option Nat) (contentType : Option String) (body : Option Obj) :
    Resp × GenDB :=
  match method with
  | Method.options => ({ status := 200, body := Body.empty }, db)
  | m =>
    if isValidTableName tableName = false then
      ({ status := 400,
         body := Body.err "Invalid table name. Only alphanumeric characters and underscores allowed." }, db)
    else
      match id with
      | none => ({ status := 400, body := Body.err "No ID provided" }, db)
      | some i =>
        match m with
        | Method.get => handleGetSingle db tableName i
        | Method.put => handleUpdate db tableName i contentType body
        | Method.del => handleDelete db tableName i
        | _ => ({ status := 405, body := Body.err "Method not allowed" }, db)

end Item

namespace DynReject

/-- `getContacts` of the reject-if-missing dynamic variant
(`functions/api/contacts2.js`): check `sqlite_master` and answer 404
without creating anything when the table is absent; otherwise list as in
the auto-create variant. -/
def getContacts (db : GenDB) (tableName : String) : Resp × GenDB :=
  if tableExists db tableName = false then
    ({ status := 404, body := Body.err ("Table " ++ tableName ++ " does not exist") }, db)
  else
    let results := sortByIdDesc (rowsOf db tableName)
    ({ status := 200, body := Body.list results.length results }, db)

/-- `createContact` of the reject-if-missing dynamic variant: bad JSON
throws before any datastore access; a missing table answers 404 without
creating anything; the rest matches the auto-create insert. -/
def createContact (db : GenDB) (tableName : String) (body : Option Obj) :
    Except String Resp × GenDB :=
  match body with
  | none => (Except.error "Invalid JSON data", db)
  | some requestData =>
    if tableExists db tableName = false then
      (Except.ok ⟨404, Body.err ("Table " ++ tableName ++ " does not exist")⟩, db)
    else
      let fields := encodeFields requestData
      if fields.length == 0 then
        (Except.error ("Failed to save record to table " ++ tableName ++
          ": At least one field (x_01 to x_20) is required"), db)
      else
        let t := getTable db tableName
        let row : Row := { id_x := t.nextId, cells := buildCells fields }
        let t2 : Table := { nextId := t.nextId + 1, rows := t.rows ++ [row] }
        let flds := fields.map (fun p => p.1)
        (Except.ok ⟨200, Body.created tableName t.nextId flds requestData⟩,
         setTable db tableName t2)

end DynReject

/-- A row of the legacy fixed-schema `contacts` table
(`id, name, email, message, created_at`). -/
structure ContactRow where
  id : Nat
  name : String
  email : String
  message : String
  created_at : Nat
deriving DecidableEq, Repr

/-- The legacy datastore: the `contacts` table either absent (`none`) or
present with its rows.  The legacy handlers never create it; a SQL
statement against the absent table raises a `no such table` error. -/
abbrev LegacyDB := Option (List ContactRow)

/-- A legacy response body. -/
inductive LBody where
  | rows : List ContactRow → LBody
  | deleted : Nat → ContactRow → LBody
  | err : String → LBody
deriving DecidableEq, Repr

structure LResp where
  status : Nat
  body : LBody
deriving DecidableEq, Repr

namespace Legacy

/-- `getContacts` of the legacy fixed-schema collection endpoint
(`functions/api/contacts2.js`, second implementation):
`SELECT * FROM contacts ORDER BY created_at DESC` with no existence
check; a missing table raises, and the error escapes to `onRequest`. -/
def getContacts (db : LegacyDB) : Except String LResp :=
  match db with
  | none => Except.error "no such table: contacts"
  | some rows =>
    let sorted := rows.insertionSort (fun a b => b.created_at ≤ a.created_at)
    Except.ok ⟨200, LBody.rows sorted⟩

/-- The GET path of legacy `onRequest`: an error thrown by the handler
is caught and answered with status 500. -/
def onRequestGet (db : LegacyDB) : LResp :=
  match getContacts db with
  | Except.ok r => r
  | Except.error msg => ⟨500, LBody.err msg⟩

end Legacy

namespace LegacyItem

/-- `handleDelete` of the legacy item endpoint
(`functions/api/contacts/[id]1.js`): existence check
`SELECT id, name FROM contacts WHERE id = ?` — on a missing table the
statement raises and the local catch answers 400; no row answers 404;
otherwise `DELETE FROM contacts WHERE id = ?` and 200 with the change
count.  The table is never created. -/
def handleDelete (db : LegacyDB) (id : Nat) : LResp × LegacyDB :=
  match db with
  | none =>
    (⟨400, LBody.err "Delete failed: no such table: contacts"⟩, none)
  | some rows =>
    match rows.find? (fun r => r.id == id) with
    | none => (⟨404, LBody.err "Contact not found"⟩, some rows)
    | some r =>
      let changes := (rows.filter (fun row => row.id == id)).length
      (⟨200, LBody.deleted changes r⟩, some (rows.filter (fun row => !(row.id == id))))

end LegacyItem

/-- Is a payload key one of the twenty recognized generic field names? -/
def recognizedName (k : String) : Bool :=
  (List.range 20).any (fun j => colName (j + 1) == k)

/-- The ascending field indices (1-based) the codec selects from a
payload. -/
def selectedIdx (data : Obj) : List Nat :=
  ((List.range 20).filter (fun j => hasOwnProperty data (colName (j + 1)))).map
    (fun j => j + 1)

/-- The value the codec reads for a selected field (`data[colName]`). -/
def propValD (data : Obj) (k : String) : Val :=
  (lookupProp data k).getD Val.null

/-- The concrete payload of the specification's round-trip test:
`x_01 = "a"`, `x_05 = "b"`. -/
def samplePayload : Obj := [("x_01", Val.str "a"), ("x_05", Val.str "b")]

lemma regexStartChar_iff (c : Char) : regexStartChar c = true ↔ SpecStartChar c := by
  simp only [regexStartChar, SpecStartChar, Bool.or_eq_true, Bool.and_eq_true,
    decide_eq_true_eq, beq_iff_eq]
  tauto

lemma regexBodyChar_iff (c : Char) : regexBodyChar c = true ↔ SpecBodyChar c := by
  simp only [regexBodyChar, SpecBodyChar, Bool.or_eq_true, Bool.and_eq_true,
    decide_eq_true_eq, beq_iff_eq]
  tauto

lemma isValidTableName_iff (s : String) :
    isValidTableName s = true ↔ ValidTableNameSpec s := by
  unfold isValidTableName ValidTableNameSpec regexTest
  cases h : s.toList with
  | nil => simp [h]
  | cons c cs =>
    simp only [h, Bool.and_eq_true, decide_eq_true_eq, List.all_eq_true,
      List.take_succ_cons, List.take_zero, List.tail_cons, List.mem_singleton,
      regexStartChar_iff, regexBodyChar_iff, ne_eq, reduceCtorEq,
      not_false_iff, true_and]
    constructor
    · rintro ⟨⟨h1, h2⟩, h3⟩
      exact ⟨fun d hd => hd ▸ h1, h2, h3⟩
    · rintro ⟨h1, h2, h3⟩
      exact ⟨⟨h1 c rfl, h2⟩, h3⟩

lemma digit_not_startChar (c : Char) (h0 : '0' ≤ c) (h9 : c ≤ '9') :
    ¬ SpecStartChar c := by
  rintro (⟨hA, _⟩ | ⟨ha, _⟩ | rfl)
  · exact absurd (le_trans hA h9) (by decide)
  · exact absurd (le_trans ha h9) (by decide)
  · exact absurd h9 (by decide)

/-- C1: `isValidTableName s` returns true exactly when `s` matches
`^[A-Za-z_][A-Za-z0-9_]*$` and has length at most 50; in particular it
returns false for the empty string, for a leading digit, for length 51,
and whenever `s` contains a semicolon, a space or a hyphen.  The
embedding is a pure function, mirroring the side-effect-free source. -/
theorem c1_isValidTableName_correct :
    (∀ s, isValidTableName s = true ↔ ValidTableNameSpec s)
    ∧ isValidTableName "" = false
    ∧ (∀ s c cs, s.toList = c :: cs → ('0' ≤ c ∧ c ≤ '9') → isValidTableName s = false)
    ∧ (∀ s, s.length = 51 → isValidTableName s = false)
    ∧ (∀ s c, c ∈ s.toList → (c = ';' ∨ c = ' ' ∨ c = '-') →
        isValidTableName s = false) := by
  refine ⟨isValidTableName_iff, by decide, ?_, ?_, ?_⟩
  · intro s c cs hlist hdig
    cases hv : isValidTableName s with
    | false => rfl
    | true =>
      exfalso
      have hspec := (isValidTableName_iff s).mp hv
      have hc := hspec.2.1 c (by rw [hlist]; simp)
      exact digit_not_startChar c hdig.1 hdig.2 hc
  · intro s hlen
    simp [isValidTableName, hlen]
  · intro s c hmem hbad
    cases hv : isValidTableName s with
    | false => rfl
    | true =>
      exfalso
      have hspec := (isValidTableName_iff s).mp hv
      cases hcons : s.toList with
      | nil => rw [hcons] at hmem; exact absurd hmem (List.not_mem_nil c)
      | cons c0 cs =>
        rw [hcons] at hmem
        rcases List.mem_cons.mp hmem with rfl | htail
        · have hc := hspec.2.1 c (by rw [hcons]; simp)
          rcases hbad with rfl | rfl | rfl <;> revert hc <;> decide
        · have hc := hspec.2.2.1 c (by rw [hcons]; simpa using htail)
          rcases hbad with rfl | rfl | rfl <;> revert hc <;> decide

/-- Witness for C1 at concrete inputs. -/
theorem c1_isValidTableName_correct_witness :
    isValidTableName "penerbit_books" = true ∧ isValidTableName "drop-table" = false :=
  ⟨(c1_isValidTableName_correct.1 "penerbit_books").mpr (by decide),
   c1_isValidTableName_correct.2.2.2.2 "drop-table" '-' (by decide)
     (Or.inr (Or.inr rfl))⟩

lemma tableExists_append_self (db : GenDB) (n : String) (t : Table) :
    tableExists (db ++ [(n, t)]) n = true := by
  induction db with
  | nil => simp [tableExists, List.find?]
  | cons p rest ih =>
    by_cases h : p.1 == n
    · simp [tableExists, List.find?, h]
    · simpa [tableExists, List.find?, h] using ih

lemma tableExists_createTableIfNotExists (db : GenDB) (n : String) :
    tableExists (createTableIfNotExists db n) n = true := by
  unfold createTableIfNotExists
  by_cases h : tableExists db n
  · simpa [h]
  · simp only [h]
    simpa using tableExists_append_self db n emptyTable

/-- How many stored tables carry a given name (a duplicate would make
this exceed one). -/
def tableCount (db : GenDB) (n : String) : Nat :=
  (db.filter (fun p => p.1 == n)).length

lemma tableCount_createTableIfNotExists (db : GenDB) (n : String) :
    tableCount (createTableIfNotExists db n) n = max 1 (tableCount db n) := by
  unfold createTableIfNotExists
  by_cases h : tableExists db n
  · rw [if_pos h]
    have hpos : 0 < tableCount db n := by
      unfold tableExists at h
      rw [List.find?_isSome] at h
      obtain ⟨p, hp, hpn⟩ := h
      unfold tableCount
      exact List.length_pos.mpr (fun he => (List.filter_eq_nil.mp he) p hp hpn)
    omega
  · rw [if_neg h]
    have hnil : db.filter (fun p => p.1 == n) = [] := by
      rw [List.filter_eq_nil_iff]
      intro p hp hpn
      unfold tableExists at h
      exact h (List.find?_isSome.mpr ⟨p, hp, hpn⟩)
    have hzero : tableCount db n = 0 := by
      unfold tableCount
      rw [hnil, List.length_nil]
    unfold tableCount at hzero ⊢
    rw [List.filter_append, hnil]
    simp [List.filter]

/-- C8: table provisioning is idempotent: for a valid table name,
running `createTableIfNotExists` twice equals running it once, the
second run cannot fail (`CREATE TABLE IF NOT EXISTS` is total: it is
modelled as a function, and the provisioned state always carries the
table), and provisioning never duplicates the table (afterwards exactly
`max 1 k` entries carry the name, where `k` is the prior count — one
entry for a fresh name, unchanged for an existing one). -/
theorem c8_createTableIfNotExists_idempotent (db : GenDB) (n : String)
    (hv : isValidTableName n = true) :
    createTableIfNotExists (createTableIfNotExists db n) n = createTableIfNotExists db n
    ∧ tableExists (createTableIfNotExists db n) n = true
    ∧ tableCount (createTableIfNotExists db n) n = max 1 (tableCount db n) := by
  refine ⟨?_, tableExists_createTableIfNotExists db n, tableCount_createTableIfNotExists db n⟩
  unfold createTableIfNotExists
  by_cases h : tableExists db n
  · simp [h]
  · rw [if_neg h, if_pos]
    simpa using tableExists_append_self db n emptyTable

/-- Witness for C8 at a concrete datastore. -/
theorem c8_createTableIfNotExists_idempotent_witness :
    createTableIfNotExists (createTableIfNotExists [] "books") "books"
      = createTableIfNotExists [] "books"
    ∧ tableExists (createTableIfNotExists [] "books") "books" = true
    ∧ tableCount (createTableIfNotExists [] "books") "books" = max 1 (tableCount [] "books") :=
  c8_createTableIfNotExists_idempotent [] "books" (by decide)

lemma ensureTable_of_exists {db : GenDB} {n : String} (h : tableExists db n = true) :
    ensureTable db n = db := by
  unfold ensureTable
  rw [if_pos h]

lemma ensureTable_of_fresh {db : GenDB} {n : String} (h : tableExists db n = false) :
    ensureTable db n = db ++ [(n, emptyTable)] := by
  unfold ensureTable createTableIfNotExists
  rw [if_neg (by simp [h]), if_neg (by simp [h])]

lemma tableExists_ensureTable (db : GenDB) (n : String) :
    tableExists (ensureTable db n) n = true := by
  by_cases h : tableExists db n
  · rw [ensureTable_of_exists h]; exact h
  · rw [ensureTable_of_fresh (by simpa using h)]
    exact tableExists_append_self db n emptyTable

lemma find_append_right {db : GenDB} {n : String} (t : Table)
    (h : db.find? (fun p => p.1 == n) = none) :
    (db ++ [(n, t)]).find? (fun p => p.1 == n) = some (n, t) := by
  induction db with
  | nil => simp [List.find?]
  | cons p rest ih =>
    rw [List.find?_cons] at h
    cases hp : (p.1 == n) with
    | true => rw [hp] at h; exact absurd h (by simp)
    | false =>
      rw [hp] at h
      simp only [List.cons_append, List.find?_cons, hp]
      exact ih h

lemma getTable_ensureTable_fresh {db : GenDB} {n : String}
    (h : tableExists db n = false) :
    getTable (ensureTable db n) n = emptyTable := by
  rw [ensureTable_of_fresh h]
  unfold getTable
  unfold tableExists at h
  rw [find_append_right emptyTable (by simpa using h)]
  rfl

lemma rowsOf_ensureTable_fresh {db : GenDB} {n : String}
    (h : tableExists db n = false) :
    rowsOf (ensureTable db n) n = [] := by
  unfold rowsOf
  rw [getTable_ensureTable_fresh h]
  rfl

lemma find?_map_set (db : GenDB) (n : String) (t : Table) :
    List.find? (fun p => p.1 == n) (db.map (fun p => if (p.1 == n) = true then (n, t) else p))
      = (List.find? (fun p => p.1 == n) db).map (fun _ => (n, t)) := by
  induction db with
  | nil => rfl
  | cons p rest ih =>
    by_cases hp : p.1 = n
    · have hb : (p.1 == n) = true := by simpa using hp
      rw [List.map_cons, if_pos hb, List.find?_cons_of_pos _ (by simp)]
      simp only [List.find?_cons, hb]
      rfl
    · have hb : (p.1 == n) = false := by simpa using hp
      rw [List.map_cons, if_neg (by simp [hb])]
      simp only [List.find?_cons, hb]
      exact ih

lemma tableExists_setTable {db : GenDB} {n : String} (t : Table)
    (h : tableExists db n = true) :
    tableExists (setTable db n t) n = true := by
  unfold setTable
  rw [if_pos h]
  unfold tableExists at h ⊢
  rw [find?_map_set]
  obtain ⟨p, hp⟩ := Option.isSome_iff_exists.mp h
  rw [hp]
  rfl

lemma getTable_setTable_self {db : GenDB} {n : String} (t : Table)
    (h : tableExists db n = true) :
    getTable (setTable db n t) n = t := by
  unfold setTable
  rw [if_pos h]
  unfold getTable
  rw [find?_map_set]
  unfold tableExists at h
  obtain ⟨p, hp⟩ := Option.isSome_iff_exists.mp h
  rw [hp]
  rfl

lemma find?_map_set_ne (db : GenDB) {n : String} (t : Table) {m : String}
    (h : m ≠ n) :
    List.find? (fun p => p.1 == m) (db.map (fun p => if (p.1 == n) = true then (n, t) else p))
      = List.find? (fun p => p.1 == m) db := by
  induction db with
  | nil => rfl
  | cons p rest ih =>
    by_cases hp : p.1 = n
    · have hb : (p.1 == n) = true := by simpa using hp
      have hm : (p.1 == m) = false := by
        simp only [beq_eq_false_iff_ne, ne_eq]
        rw [hp]
        exact fun he => h he.symm
      rw [List.map_cons, if_pos hb]
      simp only [List.find?_cons, hm]
      have hnm : ((n, t).1 == m) = false := by
        simp only [beq_eq_false_iff_ne, ne_eq]
        exact fun he => h he.symm
      simp only [hnm]
      exact ih
    · have hb : (p.1 == n) = false := by simpa using hp
      rw [List.map_cons, if_neg (by simp [hb])]
      simp only [List.find?_cons]
      cases hm : (p.1 == m) with
      | true => rfl
      | false => exact ih

lemma find?_append_singleton_ne (db : GenDB) {n : String} (t : Table) {m : String}
    (h : m ≠ n) :
    List.find? (fun p => p.1 == m) (db ++ [(n, t)])
      = List.find? (fun p => p.1 == m) db := by
  induction db with
  | nil =>
    simp only [List.nil_append, List.find?]
    have hnm : ((n, t).1 == m) = false := by
      simp only [beq_eq_false_iff_ne, ne_eq]
      exact fun he => h he.symm
    simp [hnm]
  | cons p rest ih =>
    simp only [List.cons_append, List.find?_cons]
    cases hm : (p.1 == m) with
    | true => rfl
    | false => exact ih

lemma getTable_setTable_ne {db : GenDB} {n : String} (t : Table) {m : String}
    (h : m ≠ n) :
    getTable (setTable db n t) m = getTable db m := by
  unfold setTable getTable
  by_cases he : tableExists db n
  · rw [if_pos he, find?_map_set_ne db t h]
  · rw [if_neg he, find?_append_singleton_ne db t h]

lemma getTable_ensureTable_ne {db : GenDB} {n : String} {m : String}
    (h : m ≠ n) :
    getTable (ensureTable db n) m = getTable db m := by
  unfold ensureTable createTableIfNotExists
  by_cases he : tableExists db n
  · rw [if_pos he]
  · rw [if_neg he, if_neg he]
    unfold getTable
    rw [find?_append_singleton_ne db emptyTable h]

lemma getTable_ensureTable_of_exists {db : GenDB} {n : String} {m : String}
    (he : tableExists db n = true) :
    getTable (ensureTable db n) m = getTable db m := by
  rw [ensureTable_of_exists he]

lemma rowsOf_ensureTable_ne {db : GenDB} {n m : String} (h : m ≠ n) :
    rowsOf (ensureTable db n) m = rowsOf db m := by
  unfold rowsOf
  rw [getTable_ensureTable_ne h]

lemma rowsOf_setTable_ne {db : GenDB} {n m : String} (t : Table) (h : m ≠ n) :
    rowsOf (setTable db n t) m = rowsOf db m := by
  unfold rowsOf
  rw [getTable_setTable_ne t h]

lemma handleGetSingle_snd (db : GenDB) (name : String) (id : Nat) :
    (Item.handleGetSingle db name id).2 = ensureTable db name := by
  unfold Item.handleGetSingle
  dsimp only
  split <;> rfl

lemma handleUpdate_tableExists (db : GenDB) (name : String) (id : Nat)
    (ct : Option String) (body : Option Obj) :
    tableExists (Item.handleUpdate db name id ct body).2 name = true := by
  unfold Item.handleUpdate
  dsimp only
  split
  · exact tableExists_ensureTable db name
  · split
    · exact tableExists_ensureTable db name
    · split
      · exact tableExists_ensureTable db name
      · split
        · exact tableExists_ensureTable db name
        · exact tableExists_setTable _ (tableExists_ensureTable db name)

lemma handleDelete_tableExists (db : GenDB) (name : String) (id : Nat) :
    tableExists (Item.handleDelete db name id).2 name = true := by
  unfold Item.handleDelete
  dsimp only
  split
  · exact tableExists_ensureTable db name
  · exact tableExists_setTable _ (tableExists_ensureTable db name)

lemma handleUpdate_snd_fresh {db : GenDB} {name : String} (id : Nat)
    (ct : Option String) (body : Option Obj) (h : tableExists db name = false) :
    (Item.handleUpdate db name id ct body).2 = ensureTable db name := by
  unfold Item.handleUpdate
  dsimp only
  rw [getTable_ensureTable_fresh h]
  split
  · rfl
  · split
    · rfl
    · rfl

lemma handleDelete_snd_fresh {db : GenDB} {name : String} (id : Nat)
    (h : tableExists db name = false) :
    (Item.handleDelete db name id).2 = ensureTable db name := by
  unfold Item.handleDelete
  dsimp only
  rw [getTable_ensureTable_fresh h]
  rfl

/-- C10: in the auto-create item endpoint, table provisioning runs
before the Content-Type gate, the body parse and the row-existence
check: after any GET, PUT or DELETE with a valid table name and a
present id — error responses included — the named table exists; when
the table was absent before the request, every handler leaves it in the
freshly created generic-schema state (`emptyTable`), and a PUT without a
Content-Type header still both fails with 400 and creates the table, so
error responses are not schema-state-preserving. -/
theorem c10_item_provisions_even_on_error (db : GenDB) (name : String) (id : Nat)
    (ct : Option String) (body : Option Obj) (hv : isValidTableName name = true) :
    tableExists (Item.handleGetSingle db name id).2 name = true
    ∧ tableExists (Item.handleUpdate db name id ct body).2 name = true
    ∧ tableExists (Item.handleDelete db name id).2 name = true
    ∧ tableExists (Item.onRequest db Method.get name (some id) ct body).2 name = true
    ∧ tableExists (Item.onRequest db Method.put name (some id) ct body).2 name = true
    ∧ tableExists (Item.onRequest db Method.del name (some id) ct body).2 name = true
    ∧ (tableExists db name = false →
        getTable (Item.handleGetSingle db name id).2 name = emptyTable
        ∧ getTable (Item.handleUpdate db name id ct body).2 name = emptyTable
        ∧ getTable (Item.handleDelete db name id).2 name = emptyTable
        ∧ (Item.handleUpdate db name id none body).1.status = 400
        ∧ tableExists (Item.handleUpdate db name id none body).2 name = true) := by
  have hget : tableExists (Item.handleGetSingle db name id).2 name = true := by
    rw [handleGetSingle_snd]
    exact tableExists_ensureTable db name
  have hput := handleUpdate_tableExists db name id ct body
  have hdel := handleDelete_tableExists db name id
  refine ⟨hget, hput, hdel, ?_, ?_, ?_, ?_⟩
  · unfold Item.onRequest
    dsimp only
    rw [if_neg (by simp [hv])]
    exact hget
  · unfold Item.onRequest
    dsimp only
    rw [if_neg (by simp [hv])]
    exact hput
  · unfold Item.onRequest
    dsimp only
    rw [if_neg (by simp [hv])]
    exact hdel
  · intro hfresh
    refine ⟨?_, ?_, ?_, ?_, handleUpdate_tableExists db name id none body⟩
    · rw [handleGetSingle_snd]
      exact getTable_ensureTable_fresh hfresh
    · rw [handleUpdate_snd_fresh id ct body hfresh]
      exact getTable_ensureTable_fresh hfresh
    · rw [handleDelete_snd_fresh id hfresh]
      exact getTable_ensureTable_fresh hfresh
    · unfold Item.handleUpdate
      rfl

/-- Witness for C10 at a concrete fresh datastore. -/
theorem c10_item_provisions_even_on_error_witness :
    tableExists (Item.handleUpdate [] "books" 1 none none).2 "books" = true
    ∧ getTable (Item.handleDelete [] "books" 1).2 "books" = emptyTable :=
  ⟨(c10_item_provisions_even_on_error [] "books" 1 none none (by decide)).2.1,
   ((c10_item_provisions_even_on_error [] "books" 1 none none
      (by decide)).2.2.2.2.2.2 (by decide)).2.2.1⟩

lemma filterMap_eq_filter_map {α β : Type} (f : α → Option β) (g : α → Bool) (h : α → β)
    (hf : ∀ x, f x = if g x then some (h x) else none) (l : List α) :
    l.filterMap f = (l.filter g).map h := by
  induction l with
  | nil => rfl
  | cons a t ih =>
    rw [List.filterMap_cons, List.filter_cons, hf a]
    by_cases hg : g a
    · simp [hg, ih]
    · simp [hg, ih]

lemma encodeFields_eq_selected (data : Obj) :
    encodeFields data
      = (selectedIdx data).map (fun i => (colName i, propValD data (colName i))) := by
  unfold encodeFields selectedIdx
  rw [List.map_map]
  refine filterMap_eq_filter_map _ _ _ (fun j => ?_) (List.range 20)
  cases hl : lookupProp data (colName (j + 1)) with
  | none => simp [hasOwnProperty, hl]
  | some v => simp [hasOwnProperty, propValD, hl]

lemma selectedIdx_sorted (data : Obj) :
    List.Sorted (fun a b => a < b) (selectedIdx data) := by
  unfold selectedIdx
  rw [List.Sorted, List.pairwise_map]
  exact ((List.pairwise_lt_range 20).filter _).imp (fun hab => by omega)

lemma mem_selectedIdx (data : Obj) (i : Nat) :
    i ∈ selectedIdx data
      ↔ 1 ≤ i ∧ i ≤ 20 ∧ hasOwnProperty data (colName i) = true := by
  unfold selectedIdx
  simp only [List.mem_map, List.mem_filter, List.mem_range]
  constructor
  · rintro ⟨j, ⟨hj, hg⟩, rfl⟩
    exact ⟨by omega, by omega, hg⟩
  · rintro ⟨h1, h20, hg⟩
    refine ⟨i - 1, ⟨by omega, ?_⟩, by omega⟩
    rw [Nat.sub_add_cancel h1]
    exact hg

lemma recognizedName_colName {j : Nat} (h : j < 20) :
    recognizedName (colName (j + 1)) = true := by
  unfold recognizedName
  rw [List.any_eq_true]
  exact ⟨j, List.mem_range.mpr h, by simp⟩

lemma lookupProp_filter_recognized (data : Obj) (k : String)
    (hk : recognizedName k = true) :
    lookupProp (data.filter (fun p => recognizedName p.1)) k = lookupProp data k := by
  induction data with
  | nil => rfl
  | cons p t ih =>
    rw [List.filter_cons]
    by_cases hp : p.1 = k
    · have hr : recognizedName p.1 = true := by rw [hp]; exact hk
      rw [if_pos (by simp [hr])]
      unfold lookupProp
      have hb : (p.1 == k) = true := by simpa using hp
      simp only [List.find?_cons, hb]
    · have hb : (p.1 == k) = false := by simpa using hp
      by_cases hr : recognizedName p.1 = true
      · rw [if_pos (by simp [hr])]
        unfold lookupProp at ih ⊢
        simp only [List.find?_cons, hb]
        exact ih
      · rw [if_neg (by simpa using hr)]
        unfold lookupProp at ih ⊢
        simp only [List.find?_cons, hb]
        exact ih

lemma encodeFields_filter_recognized (data : Obj) :
    encodeFields (data.filter (fun p => recognizedName p.1)) = encodeFields data := by
  unfold encodeFields
  refine List.filterMap_congr (fun j hj => ?_)
  rw [lookupProp_filter_recognized data (colName (j + 1))
    (recognizedName_colName (List.mem_range.mp hj))]

/-- C4: the encode step shared by create and update selects exactly the
own-property field names among `x_01 .. x_20` (two-digit zero-padded
indices), regardless of the value bound to them (null included, since
selection tests only `hasOwnProperty`); the produced column list and
bind-value list are the image of the selected indices in ascending
index order — never the object-insertion order of the payload; and
removing every unrecognized payload key leaves the encoding unchanged,
so such keys are silently ignored rather than an error. -/
theorem c4_encodeFields_ordered_and_filtered (data : Obj) :
    encodeFields data
      = (selectedIdx data).map (fun i => (colName i, propValD data (colName i)))
    ∧ List.Sorted (fun a b => a < b) (selectedIdx data)
    ∧ (∀ i, i ∈ selectedIdx data
        ↔ 1 ≤ i ∧ i ≤ 20 ∧ hasOwnProperty data (colName i) = true)
    ∧ encodeFields (data.filter (fun p => recognizedName p.1)) = encodeFields data :=
  ⟨encodeFields_eq_selected data, selectedIdx_sorted data,
   mem_selectedIdx data, encodeFields_filter_recognized data⟩

lemma getTable_of_not_exists {db : GenDB} {n : String} (h : tableExists db n = false) :
    getTable db n = emptyTable := by
  unfold tableExists at h
  cases hfind : db.find? (fun p => p.1 == n) with
  | none => simp [getTable, hfind]
  | some p => rw [hfind] at h; simp at h

lemma rowsOf_ensureTable (db : GenDB) (n m : String) :
    rowsOf (ensureTable db n) m = rowsOf db m := by
  by_cases he : tableExists db n
  · rw [ensureTable_of_exists he]
  · have he' : tableExists db n = false := by simpa using he
    by_cases hm : m = n
    · subst hm
      rw [rowsOf_ensureTable_fresh he']
      unfold rowsOf
      rw [getTable_of_not_exists he']
      rfl
    · exact rowsOf_ensureTable_ne hm

lemma createContact_body_none (db : GenDB) (name : String) :
    DynAuto.createContact db name none = (Except.error "Invalid JSON data", db) := rfl

lemma createContact_emptyFields (db : GenDB) (name : String) (data : Obj)
    (hempty : encodeFields data = []) :
    DynAuto.createContact db name (some data)
      = (Except.error ("Failed to save record to table " ++ name ++
          ": At least one field (x_01 to x_20) is required"), ensureTable db name) := by
  unfold DynAuto.createContact
  dsimp only
  rw [hempty]
  rfl

lemma onRequest_post_of_valid (db : GenDB) (name : String) (body : Option Obj)
    (hv : isValidTableName name = true) :
    DynAuto.onRequest db Method.post name body
      = match DynAuto.createContact db name body with
        | (Except.ok r, db2) => (r, db2)
        | (Except.error msg, db2) => (⟨500, Body.err msg⟩, db2) := by
  unfold DynAuto.onRequest
  dsimp only
  rw [if_neg (by simp [hv])]

/-- Counterexample to C2 as stated: on the auto-create collection
endpoint, a POST whose body does not parse as JSON and a POST whose
body holds no recognized field both answer HTTP 500 — the thrown errors
escape to the top-level catch — not the claimed 400. -/
theorem c2_create_status_counterexample :
    (DynAuto.onRequest [] Method.post "contacts" none).1.status = 500
    ∧ ¬ ((DynAuto.onRequest [] Method.post "contacts" none).1.status = 400)
    ∧ (DynAuto.onRequest [] Method.post "contacts"
        (some [("nickname", Val.str "x")])).1.status = 500
    ∧ ¬ ((DynAuto.onRequest [] Method.post "contacts"
        (some [("nickname", Val.str "x")])).1.status = 400) := by
  decide

/-- C2 as amended: for a POST to the auto-create collection endpoint
with a valid table name, an unparseable body fails with the
`Invalid JSON data` error and an empty recognized-field set fails with
the `At least one field` error, but the HTTP status is 500 in both
cases (not 400, since both errors are thrown past the handler); no row
is inserted — the unparseable body leaves the whole datastore
untouched, and the empty field set leaves every table's rows
unchanged. -/
theorem c2_create_error_statuses (db : GenDB) (name : String) (data : Obj)
    (hv : isValidTableName name = true) (hempty : encodeFields data = []) :
    (DynAuto.onRequest db Method.post name none).1
        = ⟨500, Body.err "Invalid JSON data"⟩
    ∧ (DynAuto.onRequest db Method.post name none).2 = db
    ∧ (DynAuto.onRequest db Method.post name (some data)).1
        = ⟨500, Body.err ("Failed to save record to table " ++ name ++
            ": At least one field (x_01 to x_20) is required")⟩
    ∧ (∀ m, rowsOf (DynAuto.onRequest db Method.post name (some data)).2 m
        = rowsOf db m) := by
  rw [onRequest_post_of_valid db name none hv,
    onRequest_post_of_valid db name (some data) hv,
    createContact_body_none, createContact_emptyFields db name data hempty]
  exact ⟨rfl, rfl, rfl, fun m => rowsOf_ensureTable db name m⟩

/-- Witness for the amended C2 at concrete inputs. -/
theorem c2_create_error_statuses_witness :
    (DynAuto.onRequest [] Method.post "contacts" none).1
        = ⟨500, Body.err "Invalid JSON data"⟩
    ∧ rowsOf (DynAuto.onRequest [] Method.post "contacts"
        (some [("nickname", Val.str "x")])).2 "contacts" = rowsOf [] "contacts" :=
  ⟨(c2_create_error_statuses [] "contacts" [("nickname", Val.str "x")]
      (by decide) (by decide)).1,
   (c2_create_error_statuses [] "contacts" [("nickname", Val.str "x")]
      (by decide) (by decide)).2.2.2 "contacts"⟩

lemma onRequest_put_of_valid (db : GenDB) (name : String) (id : Nat)
    (ct : Option String) (body : Option Obj) (hv : isValidTableName name = true) :
    Item.onRequest db Method.put name (some id) ct body
      = Item.handleUpdate db name id ct body := by
  unfold Item.onRequest
  dsimp only
  rw [if_neg (by simp [hv])]

lemma onRequest_get_of_valid (db : GenDB) (name : String) (id : Nat)
    (ct : Option String) (body : Option Obj) (hv : isValidTableName name = true) :
    Item.onRequest db Method.get name (some id) ct body
      = Item.handleGetSingle db name id := by
  unfold Item.onRequest
  dsimp only
  rw [if_neg (by simp [hv])]

lemma handleUpdate_ctFail (db : GenDB) (name : String) (id : Nat)
    (ct : Option String) (body : Option Obj) (hct : contentTypeOk ct = false) :
    Item.handleUpdate db name id ct body
      = (⟨400, Body.err ("Update failed in table " ++ name ++
          ": Content-Type must be application/json")⟩, ensureTable db name) := by
  unfold Item.handleUpdate
  dsimp only
  rw [if_pos hct]

/-- Counterexample to C3 as stated: a PUT on the auto-create item
endpoint whose Content-Type is not application/json (here text/plain,
on an existing row) is answered with HTTP 400, not the claimed 415;
the same holds when the header is absent. -/
theorem c3_content_type_counterexample :
    (Item.onRequest [("contacts", ⟨2, [⟨1, []⟩]⟩)] Method.put "contacts" (some 1)
        (some "text/plain") (some [("x_03", Val.str "v")])).1.status = 400
    ∧ ¬ ((Item.onRequest [("contacts", ⟨2, [⟨1, []⟩]⟩)] Method.put "contacts" (some 1)
        (some "text/plain") (some [("x_03", Val.str "v")])).1.status = 415)
    ∧ (Item.onRequest [("contacts", ⟨2, [⟨1, []⟩]⟩)] Method.put "contacts" (some 1)
        none (some [("x_03", Val.str "v")])).1.status = 400 := by
  decide

/-- C3 as amended: for a PUT on the auto-create item endpoint with a
valid table name and a present id, a missing Content-Type header or one
not containing application/json makes the request fail with the
`Content-Type must be application/json` error at HTTP status 400 (the
throw is caught by the handler's own catch; no 415 is ever produced),
and no row of any table is modified — only the lazy provisioning of the
named table can occur. -/
theorem c3_update_requires_json_content_type (db : GenDB) (name : String) (id : Nat)
    (ct : Option String) (body : Option Obj)
    (hv : isValidTableName name = true) (hct : contentTypeOk ct = false) :
    (Item.onRequest db Method.put name (some id) ct body).1
      = ⟨400, Body.err ("Update failed in table " ++ name ++
          ": Content-Type must be application/json")⟩
    ∧ (∀ m, rowsOf (Item.onRequest db Method.put name (some id) ct body).2 m
        = rowsOf db m) := by
  rw [onRequest_put_of_valid db name id ct body hv,
    handleUpdate_ctFail db name id ct body hct]
  exact ⟨rfl, fun m => rowsOf_ensureTable db name m⟩

/-- Witness for the amended C3 at concrete inputs. -/
theorem c3_update_requires_json_content_type_witness :
    (Item.onRequest [] Method.put "contacts" (some 1) none none).1
      = ⟨400, Body.err ("Update failed in table contacts" ++
          ": Content-Type must be application/json")⟩ :=
  (c3_update_requires_json_content_type [] "contacts" 1 none none
    (by decide) (by decide)).1

lemma find?_of_filter_singleton {l : List Row} {p : Row → Bool} {r : Row}
    (h : l.filter p = [r]) : l.find? p = some r := by
  induction l with
  | nil => simp at h
  | cons a t ih =>
    rw [List.filter_cons] at h
    by_cases ha : p a = true
    · rw [if_pos ha] at h
      have hr : a = r := (List.cons_eq_cons.mp h).1
      simp only [List.find?_cons, ha]
      exact congrArg some hr
    · have hb : p a = false := by simpa using ha
      rw [if_neg (by simp [hb])] at h
      simp only [List.find?_cons, hb]
      exact ih h

lemma tableExists_of_rows_nonempty {db : GenDB} {name : String}
    (h : rowsOf db name ≠ []) : tableExists db name = true := by
  by_contra hne
  apply h
  unfold rowsOf
  rw [getTable_of_not_exists (by simpa using hne)]
  rfl

/-- C6: on a GET of the auto-create item endpoint with a valid table
name: an existing table with no row matching the bound id answers 404;
a not-yet-existing table is first provisioned (empty, generic schema)
and then answers 404 — the creation itself is not an error; and when
exactly one row matches, that row is returned with success (200). -/
theorem c6_get_single_not_found_semantics (db : GenDB) (name : String) (id : Nat)
    (hv : isValidTableName name = true) :
    (tableExists db name = true →
      (∀ row ∈ rowsOf db name, row.id_x ≠ id) →
      (Item.onRequest db Method.get name (some id) none none).1
        = ⟨404, Body.err ("Record not found in table " ++ name)⟩)
    ∧ (tableExists db name = false →
        (Item.onRequest db Method.get name (some id) none none).1
          = ⟨404, Body.err ("Record not found in table " ++ name)⟩
        ∧ tableExists (Item.onRequest db Method.get name (some id) none none).2 name = true
        ∧ getTable (Item.onRequest db Method.get name (some id) none none).2 name
            = emptyTable)
    ∧ (∀ r, (rowsOf db name).filter (fun row => row.id_x == id) = [r] →
        (Item.onRequest db Method.get name (some id) none none).1
          = ⟨200, Body.single name r⟩) := by
  rw [onRequest_get_of_valid db name id none none hv]
  refine ⟨?_, ?_, ?_⟩
  · intro hex hnone
    have hfind : (rowsOf db name).find? (fun r => r.id_x == id) = none :=
      List.find?_eq_none.mpr (fun row hm => by simpa using hnone row hm)
    unfold Item.handleGetSingle
    dsimp only
    rw [ensureTable_of_exists hex, hfind]
  · intro hfresh
    refine ⟨?_, ?_, ?_⟩
    · unfold Item.handleGetSingle
      dsimp only
      rw [rowsOf_ensureTable_fresh hfresh]
      rfl
    · rw [handleGetSingle_snd]
      exact tableExists_ensureTable db name
    · rw [handleGetSingle_snd]
      exact getTable_ensureTable_fresh hfresh
  · intro r hfilter
    have hex : tableExists db name = true := by
      apply tableExists_of_rows_nonempty
      intro hc
      rw [hc] at hfilter
      simp at hfilter
    have hfind := find?_of_filter_singleton hfilter
    unfold Item.handleGetSingle
    dsimp only
    rw [ensureTable_of_exists hex, hfind]

/-- Witness for C6 at concrete datastores. -/
theorem c6_get_single_not_found_semantics_witness :
    (Item.onRequest [("t1", ⟨2, [⟨1, []⟩]⟩)] Method.get "t1" (some 5) none none).1
      = ⟨404, Body.err ("Record not found in table " ++ "t1")⟩
    ∧ (Item.onRequest [] Method.get "t2" (some 5) none none).1
      = ⟨404, Body.err ("Record not found in table " ++ "t2")⟩
    ∧ (Item.onRequest [("t1", ⟨2, [⟨1, []⟩]⟩)] Method.get "t1" (some 1) none none).1
      = ⟨200, Body.single "t1" ⟨1, []⟩⟩ :=
  ⟨(c6_get_single_not_found_semantics [("t1", ⟨2, [⟨1, []⟩]⟩)] "t1" 5
      (by decide)).1 (by decide) (by decide),
   ((c6_get_single_not_found_semantics [] "t2" 5 (by decide)).2.1 (by decide)).1,
   (c6_get_single_not_found_semantics [("t1", ⟨2, [⟨1, []⟩]⟩)] "t1" 1
      (by decide)).2.2 ⟨1, []⟩ (by decide)⟩

lemma createContact_success (db : GenDB) (name : String) (data : Obj)
    (hne : ((encodeFields data).length == 0) = false) :
    DynAuto.createContact db name (some data)
      = (Except.ok ⟨200, Body.created name (getTable (ensureTable db name) name).nextId
            ((encodeFields data).map (fun p => p.1)) data⟩,
         setTable (ensureTable db name) name
           ⟨(getTable (ensureTable db name) name).nextId + 1,
            (getTable (ensureTable db name) name).rows ++
              [⟨(getTable (ensureTable db name) name).nextId,
                buildCells (encodeFields data)⟩]⟩) := by
  unfold DynAuto.createContact
  dsimp only
  rw [if_neg (by simp [hne])]

/-- C5: a POST of `x_01 = "a"`, `x_05 = "b"` to a valid, not yet
existing table name auto-creates the table, inserts exactly one row
whose id is the positive integer 1, with `x_01 = "a"`, `x_05 = "b"` and
every other generic cell NULL, and answers 200 echoing the written
columns; listing the table afterwards answers exactly that one row
first with count 1; and in general the list response reports a count
equal to the number of returned rows, ordered descending by `id_x`. -/
theorem c5_create_then_list (db : GenDB) (name : String)
    (hv : isValidTableName name = true) (hfresh : tableExists db name = false) :
    ∃ r : Row,
      (DynAuto.onRequest db Method.post name (some samplePayload)).1
        = ⟨200, Body.created name 1 ["x_01", "x_05"] samplePayload⟩
      ∧ tableExists (DynAuto.onRequest db Method.post name (some samplePayload)).2 name = true
      ∧ rowsOf (DynAuto.onRequest db Method.post name (some samplePayload)).2 name = [r]
      ∧ r.id_x = 1 ∧ 0 < r.id_x
      ∧ cellOf r 0 = Val.str "a" ∧ cellOf r 4 = Val.str "b"
      ∧ (∀ j, j < 20 → j ≠ 0 → j ≠ 4 → cellOf r j = Val.null)
      ∧ (DynAuto.getContacts
          (DynAuto.onRequest db Method.post name (some samplePayload)).2 name).1
          = ⟨200, Body.list 1 [r]⟩
      ∧ (∀ db0 n0, ∃ rs, (DynAuto.getContacts db0 n0).1 = ⟨200, Body.list rs.length rs⟩
          ∧ List.Sorted rowDescOrder rs) := by
  have hget1 : getTable (ensureTable db name) name = emptyTable :=
    getTable_ensureTable_fresh hfresh
  have hne : ((encodeFields samplePayload).length == 0) = false := by decide
  have heq : DynAuto.onRequest db Method.post name (some samplePayload)
      = (⟨200, Body.created name 1 ["x_01", "x_05"] samplePayload⟩,
         setTable (ensureTable db name) name
           ⟨2, [⟨1, buildCells (encodeFields samplePayload)⟩]⟩) := by
    rw [onRequest_post_of_valid db name (some samplePayload) hv,
      createContact_success db name samplePayload hne, hget1]
    dsimp only
    norm_num [emptyTable]
    decide
  refine ⟨⟨1, buildCells (encodeFields samplePayload)⟩, ?_, ?_, ?_, rfl, by decide,
    by decide, by decide, by decide, ?_, ?_⟩
  · rw [heq]
  · rw [heq]
    exact tableExists_setTable _ (tableExists_ensureTable db name)
  · rw [heq]
    unfold rowsOf
    rw [getTable_setTable_self _ (tableExists_ensureTable db name)]
  · rw [heq]
    have hex2 : tableExists (setTable (ensureTable db name) name
        ⟨2, [⟨1, buildCells (encodeFields samplePayload)⟩]⟩) name = true :=
      tableExists_setTable _ (tableExists_ensureTable db name)
    unfold DynAuto.getContacts
    dsimp only
    rw [ensureTable_of_exists hex2]
    unfold rowsOf
    rw [getTable_setTable_self _ (tableExists_ensureTable db name)]
    decide
  · intro db0 n0
    refine ⟨sortByIdDesc (rowsOf (ensureTable db0 n0) n0), rfl, ?_⟩
    exact List.sorted_insertionSort rowDescOrder _

/-- Witness for C5 at a concrete fresh datastore. -/
theorem c5_create_then_list_witness :
    rowsOf (DynAuto.onRequest [] Method.post "books"
      (some samplePayload)).2 "books" ≠ [] := by
  obtain ⟨r, _, _, h3, _⟩ := c5_create_then_list [] "books" (by decide) (by decide)
  rw [h3]
  simp

lemma filter_id_singleton {rows : List Row} {id : Nat} {r : Row}
    (hnd : (rows.map (fun row => row.id_x)).Nodup)
    (hf : rows.find? (fun row => row.id_x == id) = some r) :
    rows.filter (fun row => row.id_x == id) = [r] := by
  induction rows with
  | nil => simp at hf
  | cons a t ih =>
    rw [List.map_cons, List.nodup_cons] at hnd
    cases ha : (a.id_x == id) with
    | true =>
      have hae : a.id_x = id := by simpa using ha
      have har : a = r := by
        simp only [List.find?_cons, ha] at hf
        exact Option.some.inj hf
      rw [List.filter_cons, if_pos (by simp [ha])]
      have hnil : t.filter (fun row => row.id_x == id) = [] := by
        rw [List.filter_eq_nil_iff]
        intro row hrow hpr
        apply hnd.1
        rw [List.mem_map]
        exact ⟨row, hrow, by rw [hae]; simpa using hpr⟩
      rw [hnil, har]
    | false =>
      simp only [List.find?_cons, ha] at hf
      rw [List.filter_cons, if_neg (by simp [ha])]
      exact ih hnd.2 hf

/-- C7: a PUT whose payload holds only the recognized field `x_03`,
addressed at an existing row (unique ids), answers 200 with a change
count of exactly 1, rewrites only the addressed row — its `x_03` cell
becomes the new value, every other cell keeps its prior value and the
id is untouched — leaves every other row of the table as the identity
branch of the rewrite, and leaves every other table untouched. -/
theorem c7_update_only_x03 (db : GenDB) (name : String) (id : Nat) (v : Val) (r : Row)
    (hv : isValidTableName name = true)
    (hnodup : ((rowsOf db name).map (fun row => row.id_x)).Nodup)
    (hfind : (rowsOf db name).find? (fun row => row.id_x == id) = some r) :
    (Item.onRequest db Method.put name (some id) (some "application/json")
        (some [("x_03", v)])).1
      = ⟨200, Body.updated name 1 ["x_03"] [("x_03", v)]⟩
    ∧ rowsOf (Item.onRequest db Method.put name (some id) (some "application/json")
        (some [("x_03", v)])).2 name
      = (rowsOf db name).map (fun row =>
          if (row.id_x == id) = true then applyUpdate row [("x_03", v)] else row)
    ∧ (applyUpdate r [("x_03", v)]).id_x = r.id_x
    ∧ cellOf (applyUpdate r [("x_03", v)]) 2 = v
    ∧ (∀ j, j < 20 → j ≠ 2 → cellOf (applyUpdate r [("x_03", v)]) j = cellOf r j)
    ∧ (∀ m, m ≠ name →
        rowsOf (Item.onRequest db Method.put name (some id) (some "application/json")
          (some [("x_03", v)])).2 m = rowsOf db m) := by
  have hmem : r ∈ rowsOf db name := List.mem_of_find?_eq_some hfind
  have hex : tableExists db name = true :=
    tableExists_of_rows_nonempty (List.ne_nil_of_mem hmem)
  have henc : encodeFields [("x_03", v)] = [("x_03", v)] := rfl
  have hfind' : List.find? (fun row => row.id_x == id) (getTable db name).rows = some r := hfind
  have hfilter : List.filter (fun row => row.id_x == id) (getTable db name).rows = [r] :=
    filter_id_singleton hnodup hfind
  have heq : Item.onRequest db Method.put name (some id) (some "application/json")
        (some [("x_03", v)])
      = (⟨200, Body.updated name 1 ["x_03"] [("x_03", v)]⟩,
         setTable db name ⟨(getTable db name).nextId,
           (getTable db name).rows.map (fun row =>
             if (row.id_x == id) = true then applyUpdate row [("x_03", v)] else row)⟩) := by
    rw [onRequest_put_of_valid db name id (some "application/json") (some [("x_03", v)]) hv]
    unfold Item.handleUpdate
    dsimp only
    rw [if_neg (by decide), ensureTable_of_exists hex, hfind']
    dsimp only
    rw [henc]
    rw [if_neg (by simp)]
    rw [hfilter]
    rfl
  refine ⟨by rw [heq], ?_, rfl, rfl, ?_, ?_⟩
  · rw [heq]
    unfold rowsOf
    rw [getTable_setTable_self _ hex]
  · intro j hj hne
    interval_cases j <;> first | rfl | exact absurd rfl hne
  · intro m hm
    rw [heq]
    exact rowsOf_setTable_ne _ hm

/-- Witness for C7 at a concrete one-row table. -/
theorem c7_update_only_x03_witness :
    (Item.onRequest [("t1", ⟨2, [⟨1, [Val.str "z"]⟩]⟩)] Method.put "t1" (some 1)
        (some "application/json") (some [("x_03", Val.str "w")])).1
      = ⟨200, Body.updated "t1" 1 ["x_03"] [("x_03", Val.str "w")]⟩ :=
  (c7_update_only_x03 [("t1", ⟨2, [⟨1, [Val.str "z"]⟩]⟩)] "t1" 1 (Val.str "w")
    ⟨1, [Val.str "z"]⟩ (by decide) (by decide) (by decide)).1

/-- Counterexample to C9 as stated: in the legacy fixed-schema
variants a request touching the missing `contacts` table is NOT
answered 404 — the legacy item endpoint's DELETE answers 400 (the SQL
`no such table` error is caught locally) and the legacy collection GET
answers 500 (the error escapes to the top-level catch). -/
theorem c9_missing_table_counterexample :
    (LegacyItem.handleDelete none 1).1.status = 400
    ∧ ¬ ((LegacyItem.handleDelete none 1).1.status = 404)
    ∧ (Legacy.onRequestGet none).status = 500
    ∧ ¬ ((Legacy.onRequestGet none).status = 404) := by
  decide

/-- C9 as amended: no fixed-schema (non-auto-create) variant ever
creates the missing table, but only the reject-if-missing dynamic
variant answers 404: its GET and POST reply 404 and leave the datastore
unchanged; the legacy item endpoint's DELETE on the missing `contacts`
table answers 400 with the caught `no such table` error, and the legacy
collection GET answers 500, both likewise leaving the table
uncreated. -/
theorem c9_missing_table_behaviour (db : GenDB) (name : String)
    (hfresh : tableExists db name = false) :
    (DynReject.getContacts db name).1
      = ⟨404, Body.err ("Table " ++ name ++ " does not exist")⟩
    ∧ (DynReject.getContacts db name).2 = db
    ∧ (∀ data, DynReject.createContact db name (some data)
        = (Except.ok ⟨404, Body.err ("Table " ++ name ++ " does not exist")⟩, db))
    ∧ (∀ id : Nat, LegacyItem.handleDelete none id
        = (⟨400, LBody.err "Delete failed: no such table: contacts"⟩, none))
    ∧ Legacy.onRequestGet none = ⟨500, LBody.err "no such table: contacts"⟩ := by
  refine ⟨?_, ?_, ?_, fun id => rfl, rfl⟩
  · unfold DynReject.getContacts
    rw [if_pos hfresh]
  · unfold DynReject.getContacts
    rw [if_pos hfresh]
  · intro data
    unfold DynReject.createContact
    dsimp only
    rw [if_pos hfresh]

/-- Witness for the amended C9 at concrete inputs. -/
theorem c9_missing_table_behaviour_witness :
    (DynReject.getContacts [] "contacts").1
      = ⟨404, Body.err ("Table " ++ "contacts" ++ " does not exist")⟩
    ∧ (LegacyItem.handleDelete none 7).1.status = 400 := by
  refine ⟨(c9_missing_table_behaviour [] "contacts" (by decide)).1, ?_⟩
  rw [(c9_missing_table_behaviour [] "contacts" (by decide)).2.2.2.1 7]
